import Mathlib

/-!
Shallow embedding of the two decision procedures of the trading-bot repository:

* `src/core_logic/advanced_options_strategy.py` — the options contract
  selector and sizer (`AdvancedOptionsStrategy.define_orders`,
  `_calculate_dte`, `_passes_iv_filter`);
* `src/core_logic/forex_strategies.py` — the moving-average crossover
  state machine (`MovingAverageCrossoverStrategy`).

Modelling conventions:

* Python floats are modelled by `ℚ` (exact arithmetic); the claims are about
  the algebraic relationships, not IEEE rounding.
* A Python dict field that may be absent or hold a non-numeric value is an
  inductive `NumField` (missing / invalid / numeric value); a field read with
  `dict.get(key, default)` is an `Option` read with `getD`.
* Dates: an expiration date string parsed by `datetime.strptime` to midnight
  and the evaluation instant `datetime.now()` are both modelled as rational
  timestamps measured in days; Python's `(a - b).days` floors the duration,
  hence `Int.floor`.
* Exceptions: the Python functions are total on well-formed inputs (each
  contract dict has the keys named in the `define_orders` docstring); the
  embedding is a total function, and "returns X without raising" is the
  equation `... = X`.
-/

/-- A numeric dict field that may be absent, present but unparsable by
`float(...)`, or numeric. -/
inductive NumField where
  | missing : NumField
  | invalid : NumField
  | val : ℚ → NumField
deriving DecidableEq

/-- `float(x)` applied to a field read with `.get('delta', 0)`: a missing
field reads as `0`, an unparsable one raises (`none`), a numeric one parses. -/
def delta_float : NumField → Option ℚ
  | NumField.missing => some 0
  | NumField.invalid => none
  | NumField.val q => some q

/-- The `iv_filter_mode` enumeration of `AdvancedOptionsStrategy`. -/
inductive IvMode where
  | fixed_range : IvMode
  | percentile : IvMode
  | vs_underlying_hv : IvMode
  | none : IvMode
deriving DecidableEq

/-- The configuration keys of `AdvancedOptionsStrategy` used by
`define_orders` and `_passes_iv_filter` (see `default_config`). -/
structure Config where
  target_dte_min : ℤ
  target_dte_max : ℤ
  target_delta_min : ℚ
  target_delta_max : ℚ
  iv_filter_mode : IvMode
  target_iv_min : ℚ
  target_iv_max : ℚ
  target_iv_percentile_min : ℚ
  target_iv_percentile_max : ℚ
  iv_to_hv_ratio_min : ℚ
  iv_to_hv_ratio_max : ℚ
  min_open_interest : ℤ
  min_volume : ℤ
  max_bid_ask_spread_pct : ℚ
  risk_per_trade_pct : ℚ
deriving DecidableEq

/-- One options-chain record as consumed by `define_orders`. `expiration_date`
is the parsed midnight timestamp in days; `open_interest`, `volume`, `bid`,
`ask` are read in the source with `.get(key, 0)` so they are `Option`s. -/
structure Contract where
  symbol : String
  type : String
  expiration_date : ℚ
  delta : NumField
  implied_volatility : NumField
  iv_percentile : NumField
  open_interest : Option ℤ
  volume : Option ℤ
  bid : Option ℚ
  ask : Option ℚ
deriving DecidableEq

/-- `_calculate_dte`: `(expiration_date - datetime.now()).days`, i.e. the
floor of the day difference between expiration midnight and `now`. -/
def calculate_dte (expiration_date now : ℚ) : ℤ :=
  Int.floor (expiration_date - now)

/-- `_passes_iv_filter(contract, underlying_hv)`: the IV parse happens before
the mode dispatch, a missing IV passes immediately, an unparsable one fails. -/
def passes_iv_filter (cfg : Config) (c : Contract) (underlying_hv : Option ℚ) : Bool :=
  match c.implied_volatility with
  | NumField.missing => true
  | NumField.invalid => false
  | NumField.val iv =>
    match cfg.iv_filter_mode with
    | IvMode.none => true
    | IvMode.fixed_range =>
        decide (cfg.target_iv_min ≤ iv ∧ iv ≤ cfg.target_iv_max)
    | IvMode.percentile =>
        match c.iv_percentile with
        | NumField.missing => false
        | NumField.invalid => false
        | NumField.val p =>
            decide (cfg.target_iv_percentile_min ≤ p ∧ p ≤ cfg.target_iv_percentile_max)
    | IvMode.vs_underlying_hv =>
        match underlying_hv with
        | Option.none => false
        | Option.some hv =>
            if hv ≤ 0 then false
            else decide (cfg.iv_to_hv_ratio_min ≤ iv / hv ∧ iv / hv ≤ cfg.iv_to_hv_ratio_max)

/-- The body of the `for contract in options_chain` loop of `define_orders`:
`true` iff the contract reaches `eligible_contracts.append` (no `continue`
fires). The sequential `continue`s are nested conditionals here. -/
def passes_stages (cfg : Config) (now : ℚ) (underlying_hv : Option ℚ)
    (desired : String) (c : Contract) : Bool :=
  if c.type ≠ desired then false
  else if ¬ (cfg.target_dte_min ≤ calculate_dte c.expiration_date now ∧
             calculate_dte c.expiration_date now ≤ cfg.target_dte_max) then false
  else
    match delta_float c.delta with
    | Option.none => false
    | Option.some d =>
      if ¬ (cfg.target_delta_min ≤ |d| ∧ |d| ≤ cfg.target_delta_max) then false
      else if ¬ passes_iv_filter cfg c underlying_hv then false
      else if c.open_interest.getD 0 < cfg.min_open_interest then false
      else if c.volume.getD 0 < cfg.min_volume then false
      else if c.ask.getD 0 ≤ 0 ∨ c.bid.getD 0 ≤ 0 then false
      else if (c.ask.getD 0 - c.bid.getD 0) / c.ask.getD 0 > cfg.max_bid_ask_spread_pct then false
      else true

/-- The eligible (surviving) set built by the loop of `define_orders`. -/
def eligible_contracts (cfg : Config) (now : ℚ) (underlying_hv : Option ℚ)
    (desired : String) (chain : List Contract) : List Contract :=
  chain.filter (passes_stages cfg now underlying_hv desired)

/-- Stage 1 of the filter pipeline: option type equals the target direction. -/
def stage_type (desired : String) (c : Contract) : Bool :=
  decide (c.type = desired)

/-- Stage 2: days-to-expiration within `[target_dte_min, target_dte_max]`. -/
def stage_dte (cfg : Config) (now : ℚ) (c : Contract) : Bool :=
  decide (cfg.target_dte_min ≤ calculate_dte c.expiration_date now ∧
          calculate_dte c.expiration_date now ≤ cfg.target_dte_max)

/-- Stage 3: the delta field coerces and its absolute value is within
`[target_delta_min, target_delta_max]`. -/
def stage_delta (cfg : Config) (c : Contract) : Bool :=
  match delta_float c.delta with
  | Option.none => false
  | Option.some d => decide (cfg.target_delta_min ≤ |d| ∧ |d| ≤ cfg.target_delta_max)

/-- Stage 4: the configured IV filter passes. -/
def stage_iv (cfg : Config) (underlying_hv : Option ℚ) (c : Contract) : Bool :=
  passes_iv_filter cfg c underlying_hv

/-- Stage 5: open interest and volume meet their configured minimums. -/
def stage_liquidity (cfg : Config) (c : Contract) : Bool :=
  decide (cfg.min_open_interest ≤ c.open_interest.getD 0 ∧
          cfg.min_volume ≤ c.volume.getD 0)

/-- Stage 6: bid and ask strictly positive and relative spread bounded. -/
def stage_spread (cfg : Config) (c : Contract) : Bool :=
  decide (0 < c.bid.getD 0 ∧ 0 < c.ask.getD 0 ∧
          (c.ask.getD 0 - c.bid.getD 0) / c.ask.getD 0 ≤ cfg.max_bid_ask_spread_pct)

/-- The six stage predicates of the filter pipeline, in source order. -/
def stage_list (cfg : Config) (now : ℚ) (underlying_hv : Option ℚ)
    (desired : String) : List (Contract → Bool) :=
  [stage_type desired, stage_dte cfg now, stage_delta cfg,
   stage_iv cfg underlying_hv, stage_liquidity cfg, stage_spread cfg]

/-- The sort key of `eligible_contracts.sort`: distance of `|delta|` from the
midpoint of the delta band, then negated open interest. -/
def sort_key (cfg : Config) (c : Contract) : ℚ × ℤ :=
  (|(|(delta_float c.delta).getD 0|) - (cfg.target_delta_min + cfg.target_delta_max) / 2|,
   -(c.open_interest.getD 0))

/-- Strict lexicographic comparison of sort keys, as Python compares the
tuples produced by the sort key. -/
def key_lt (a b : ℚ × ℤ) : Bool :=
  decide (a.1 < b.1 ∨ (a.1 = b.1 ∧ a.2 < b.2))

/-- `eligible_contracts.sort(key=...)` followed by `eligible_contracts[0]`:
Python's sort is stable, so the head of the sorted list is the leftmost
element with minimal key, computed here by a left fold. -/
def select_best (cfg : Config) : List Contract → Option Contract
  | [] => Option.none
  | c :: rest =>
      Option.some (rest.foldl
        (fun best x => if key_lt (sort_key cfg x) (sort_key cfg best) then x else best) c)

/-- An order record as built at the end of `define_orders`. -/
structure Order where
  symbol : String
  type : String
  side : String
  quantity : ℤ
  price_at_decision : ℚ
  estimated_cost : ℚ
  tag : String
deriving DecidableEq

/-- Lines 234–255 of `define_orders`: price check, sizing by floor division
(`int(trade_risk_amount // max_loss_per_contract)`), and order construction. -/
def size_orders (selected : Contract) (account_balance : ℚ) (cfg : Config)
    (desired : String) : List Order :=
  let price := selected.ask.getD 0
  if price ≤ 0 then []
  else
    let max_loss_per_contract := price * 100
    let trade_risk_amount := account_balance * cfg.risk_per_trade_pct
    let quantity : ℤ := Int.floor (trade_risk_amount / max_loss_per_contract)
    if quantity = 0 then []
    else
      [{ symbol := selected.symbol
         type := "market"
         side := "buy_to_open"
         quantity := quantity
         price_at_decision := price
         estimated_cost := price * (quantity : ℚ) * 100
         tag := "AdvancedOptionsStrategy_" ++ desired }]

/-- `AdvancedOptionsStrategy.define_orders`. `trade_signal` is
`signals.iloc[-1]['positions']`, the latest row of a non-empty signals frame;
`options_chain` is `None` or a list (Python's `not options_chain` is true for
both `None` and `[]`); `underlying_price` is only tested for presence. -/
def define_orders (cfg : Config) (now : ℚ) (trade_signal : ℚ)
    (account_balance : ℚ) (options_chain : Option (List Contract))
    (underlying_price : Option ℚ) (underlying_hv : Option ℚ) : List Order :=
  match options_chain, underlying_price with
  | Option.none, _ => []
  | Option.some [], _ => []
  | Option.some _, Option.none => []
  | Option.some chain, Option.some _ =>
    if trade_signal = 0 then []
    else
      let desired := if 0 < trade_signal then "call" else "put"
      match select_best cfg (eligible_contracts cfg now underlying_hv desired chain) with
      | Option.none => []
      | Option.some selected => size_orders selected account_balance cfg desired

/-!
The forex moving-average crossover state machine of
`src/core_logic/forex_strategies.py`. The `deque(maxlen=long_window + 5)` is
a list that drops its oldest element on append once at capacity; the pandas
`rolling(window=w).mean()` read at `iloc[-1]` is the mean of the last `w`
closes when at least `w` closes exist and NaN (here `Option.none`)
otherwise; the `historical_bars_df` field itself is kept only for logging
and bar-date bookkeeping, so the embedding carries the bars as an already
chronologically sorted list of closing prices.
-/

/-- The state of `MovingAverageCrossoverStrategy`. -/
structure MovingAverageCrossoverStrategy where
  short_window : ℕ
  long_window : ℕ
  forex_pair : String
  prices : List ℚ
  short_ma : Option ℚ
  long_ma : Option ℚ
  data_initialized : Bool
  position : ℤ
deriving DecidableEq

/-- The `__init__` constructor: empty price deque, no means, uninitialized,
flat position. -/
def mk_strategy (short_window long_window : ℕ) (forex_pair : String) :
    MovingAverageCrossoverStrategy :=
  { short_window := short_window
    long_window := long_window
    forex_pair := forex_pair
    prices := []
    short_ma := Option.none
    long_ma := Option.none
    data_initialized := false
    position := 0 }

/-- `deque.append` on a deque with `maxlen`: the oldest element is evicted
once the capacity is exceeded. -/
def deque_append (maxlen : ℕ) (l : List ℚ) (x : ℚ) : List ℚ :=
  let l' := l ++ [x]
  if maxlen < l'.length then l'.drop (l'.length - maxlen) else l'

/-- The last `w` elements of a list (Python `l[-w:]` for `0 < w ≤ len(l)`). -/
def last_n (w : ℕ) (l : List ℚ) : List ℚ :=
  l.drop (l.length - w)

/-- `sum(list(prices)[-w:]) / w`, the windowed arithmetic mean. -/
def window_mean (w : ℕ) (l : List ℚ) : ℚ :=
  (last_n w l).sum / (w : ℚ)

/-- `initialize_with_historical_data(bars)` (the Lean name drops the full
Python spelling): returns the Python return value paired with the updated
state. On the short-input path nothing is mutated; otherwise the rolling
means are read at their last row (`Option.none` for NaN when fewer than
`w` bars exist), the last `long_window` closes are appended to the existing
deque, and `data_initialized` is set to false when either mean is NaN. -/
def init_with_historical_data (s : MovingAverageCrossoverStrategy)
    (bars : List ℚ) : Bool × MovingAverageCrossoverStrategy :=
  if bars.isEmpty ∨ bars.length < s.long_window then (false, s)
  else
    let short_ma := if s.short_window ≤ bars.length
      then Option.some (window_mean s.short_window bars) else Option.none
    let long_ma := if s.long_window ≤ bars.length
      then Option.some (window_mean s.long_window bars) else Option.none
    let prices' := (last_n s.long_window bars).foldl
      (deque_append (s.long_window + 5)) s.prices
    let s' := { s with prices := prices', short_ma := short_ma, long_ma := long_ma }
    if short_ma = Option.none ∨ long_ma = Option.none then
      (false, { s' with data_initialized := false })
    else
      (true, { s' with data_initialized := true })

/-- `on_new_tick(current_price)`: returns the emitted signal string paired
with the updated state. The price is appended before the window-length
guards, the new means are stored before the previous-means-`None` check, and
the BUY branch's `elif` suppresses the SELL test when an upward cross fired. -/
def on_new_tick (s : MovingAverageCrossoverStrategy) (current_price : ℚ) :
    String × MovingAverageCrossoverStrategy :=
  if s.data_initialized = false then ("HOLD", s)
  else if current_price ≤ 0 then ("HOLD", s)
  else
    let previous_short_ma := s.short_ma
    let previous_long_ma := s.long_ma
    let prices' := deque_append (s.long_window + 5) s.prices current_price
    if prices'.length < s.short_window then ("HOLD", { s with prices := prices' })
    else
      let new_short := window_mean s.short_window prices'
      if prices'.length < s.long_window then
        ("HOLD", { s with prices := prices', short_ma := Option.some new_short })
      else
        let new_long := window_mean s.long_window prices'
        let s' := { s with prices := prices', short_ma := Option.some new_short,
                           long_ma := Option.some new_long }
        match previous_short_ma, previous_long_ma with
        | Option.some ps, Option.some pl =>
          if ps ≤ pl ∧ new_long < new_short then
            if s.position ≤ 0 then ("BUY", { s' with position := 1 })
            else ("HOLD", s')
          else if pl ≤ ps ∧ new_short < new_long then
            if 0 ≤ s.position then ("SELL", { s' with position := -1 })
            else ("HOLD", s')
          else ("HOLD", s')
        | _, _ => ("HOLD", s')

/-- `update_position(new_position)`: the external setter, no validation. -/
def update_position (s : MovingAverageCrossoverStrategy) (new_position : ℤ) :
    MovingAverageCrossoverStrategy :=
  { s with position := new_position }

/-- Feed a sequence of ticks through `on_new_tick`, collecting the signals. -/
def run_ticks (s : MovingAverageCrossoverStrategy) :
    List ℚ → List String × MovingAverageCrossoverStrategy
  | [] => ([], s)
  | p :: ps =>
      let r := on_new_tick s p
      let rest := run_ticks r.2 ps
      (r.1 :: rest.1, rest.2)

/-- A state reachable through the public entry points: construction,
(possibly failing) historical initialization, tick processing, and the
external position setter with an arbitrary integer argument. -/
inductive Reachable : MovingAverageCrossoverStrategy → Prop where
  | construct (sw lw : ℕ) (fp : String) : Reachable (mk_strategy sw lw fp)
  | init (s : MovingAverageCrossoverStrategy) (bars : List ℚ) :
      Reachable s → Reachable (init_with_historical_data s bars).2
  | tick (s : MovingAverageCrossoverStrategy) (p : ℚ) :
      Reachable s → Reachable (on_new_tick s p).2
  | set_pos (s : MovingAverageCrossoverStrategy) (n : ℤ) :
      Reachable s → Reachable (update_position s n)

/-- Reachability when every `update_position` call passes a value in
`{-1, 0, 1}` — the discipline the callers of the setter are expected to
follow (fills are long/flat/short). -/
inductive ReachableValid : MovingAverageCrossoverStrategy → Prop where
  | construct (sw lw : ℕ) (fp : String) : ReachableValid (mk_strategy sw lw fp)
  | init (s : MovingAverageCrossoverStrategy) (bars : List ℚ) :
      ReachableValid s → ReachableValid (init_with_historical_data s bars).2
  | tick (s : MovingAverageCrossoverStrategy) (p : ℚ) :
      ReachableValid s → ReachableValid (on_new_tick s p).2
  | set_pos (s : MovingAverageCrossoverStrategy) (n : ℤ) :
      n = -1 ∨ n = 0 ∨ n = 1 →
      ReachableValid s → ReachableValid (update_position s n)

/-!
Theorems. Concrete witness inputs reuse this fixed configuration and a
contract that passes every stage of the pipeline.
-/

/-- The `default_config` of `AdvancedOptionsStrategy.__init__` (the numeric
literals of the source, as exact rationals). -/
def default_config : Config :=
  { target_dte_min := 30, target_dte_max := 60
    target_delta_min := 3/10, target_delta_max := 1/2
    iv_filter_mode := IvMode.fixed_range
    target_iv_min := 3/20, target_iv_max := 3/5
    target_iv_percentile_min := 20, target_iv_percentile_max := 80
    iv_to_hv_ratio_min := 1, iv_to_hv_ratio_max := 5/2
    min_open_interest := 100, min_volume := 50
    max_bid_ask_spread_pct := 1/10, risk_per_trade_pct := 1/100 }

/-- A call contract 40 days out that passes every stage of the pipeline
under `default_config`. -/
def sample_call : Contract :=
  { symbol := "SPY_C", type := "call", expiration_date := 40
    delta := NumField.val (2/5)
    implied_volatility := NumField.val (1/4), iv_percentile := NumField.val 50
    open_interest := some 200, volume := some 100
    bid := some (3/2), ask := some (8/5) }

/-- C4: `_passes_iv_filter` conforms to the policy table: a missing IV
passes unconditionally in every mode; a present but non-numeric IV fails in
every mode; for a numeric IV, mode `none` always passes, mode `fixed_range`
passes iff `target_iv_min ≤ IV ≤ target_iv_max`, mode `percentile` fails on
a missing or non-numeric percentile field and otherwise passes iff the
percentile is within its bounds, and mode `vs_underlying_hv` fails on a
missing or non-positive HV and otherwise passes iff `IV/HV` is within the
ratio bounds. -/
theorem c4_iv_filter_policy (cfg : Config) (c : Contract) (hv : Option ℚ) :
    (c.implied_volatility = NumField.missing → passes_iv_filter cfg c hv = true) ∧
    (c.implied_volatility = NumField.invalid → passes_iv_filter cfg c hv = false) ∧
    (∀ iv : ℚ, c.implied_volatility = NumField.val iv →
      ((cfg.iv_filter_mode = IvMode.none → passes_iv_filter cfg c hv = true) ∧
       (cfg.iv_filter_mode = IvMode.fixed_range →
         (passes_iv_filter cfg c hv = true ↔
           cfg.target_iv_min ≤ iv ∧ iv ≤ cfg.target_iv_max)) ∧
       (cfg.iv_filter_mode = IvMode.percentile →
         ((c.iv_percentile = NumField.missing ∨ c.iv_percentile = NumField.invalid →
            passes_iv_filter cfg c hv = false) ∧
          (∀ p : ℚ, c.iv_percentile = NumField.val p →
            (passes_iv_filter cfg c hv = true ↔
              cfg.target_iv_percentile_min ≤ p ∧ p ≤ cfg.target_iv_percentile_max)))) ∧
       (cfg.iv_filter_mode = IvMode.vs_underlying_hv →
         ((hv = Option.none ∨ (∃ h : ℚ, hv = Option.some h ∧ h ≤ 0) →
            passes_iv_filter cfg c hv = false) ∧
          (∀ h : ℚ, hv = Option.some h → 0 < h →
            (passes_iv_filter cfg c hv = true ↔
              cfg.iv_to_hv_ratio_min ≤ iv / h ∧ iv / h ≤ cfg.iv_to_hv_ratio_max)))))) := by
  refine ⟨?_, ?_, ?_⟩
  · intro h; simp [passes_iv_filter, h]
  · intro h; simp [passes_iv_filter, h]
  · intro iv hiv
    refine ⟨?_, ?_, ?_, ?_⟩
    · intro hm; simp [passes_iv_filter, hiv, hm]
    · intro hm; simp [passes_iv_filter, hiv, hm]
    · intro hm
      constructor
      · rintro (hp | hp) <;> simp [passes_iv_filter, hiv, hm, hp]
      · intro p hp; simp [passes_iv_filter, hiv, hm, hp]
    · intro hm
      constructor
      · rintro (hh | ⟨h, hh, hle⟩)
        · simp [passes_iv_filter, hiv, hm, hh]
        · simp [passes_iv_filter, hiv, hm, hh, hle]
      · intro h hh hpos
        simp [passes_iv_filter, hiv, hm, hh, not_le.mpr hpos]

/-- C4 witness: the policy table evaluated at `default_config` (fixed-range
mode) on `sample_call`, whose IV `1/4` sits inside `[3/20, 3/5]`. -/
theorem c4_iv_filter_policy_witness :
    passes_iv_filter default_config sample_call (Option.some (1/5)) = true :=
  ((c4_iv_filter_policy default_config sample_call (Option.some (1/5))).2.2 (1/4)
    rfl).2.1 rfl |>.mpr (by norm_num [default_config])

theorem stage_delta_iff (cfg : Config) (c : Contract) :
    stage_delta cfg c = true ↔
      ∃ dv : ℚ, delta_float c.delta = Option.some dv ∧
        cfg.target_delta_min ≤ |dv| ∧ |dv| ≤ cfg.target_delta_max := by
  unfold stage_delta
  cases hd : delta_float c.delta <;> simp [hd]

theorem passes_stages_iff (cfg : Config) (now : ℚ) (hv : Option ℚ)
    (d : String) (c : Contract) :
    passes_stages cfg now hv d c = true ↔
      stage_type d c = true ∧ stage_dte cfg now c = true ∧ stage_delta cfg c = true ∧
      stage_iv cfg hv c = true ∧ stage_liquidity cfg c = true ∧ stage_spread cfg c = true := by
  unfold passes_stages stage_type stage_dte stage_delta stage_iv stage_liquidity stage_spread
  cases hd : delta_float c.delta <;>
    split_ifs <;>
      simp_all [not_lt, not_le] <;>
        first
        | tauto
        | (intro _ _ hb ha
           rcases (show c.ask.getD 0 ≤ 0 ∨ c.bid.getD 0 ≤ 0 from by assumption) with h | h <;>
             linarith)

theorem passes_stages_eq_all (cfg : Config) (now : ℚ) (hv : Option ℚ)
    (d : String) (c : Contract) :
    passes_stages cfg now hv d c = (stage_list cfg now hv d).all (fun f => f c) := by
  have h1 := passes_stages_iff cfg now hv d c
  have h2 : (stage_list cfg now hv d).all (fun f => f c) = true ↔
      stage_type d c = true ∧ stage_dte cfg now c = true ∧ stage_delta cfg c = true ∧
      stage_iv cfg hv c = true ∧ stage_liquidity cfg c = true ∧ stage_spread cfg c = true := by
    simp [stage_list, List.all_cons, and_assoc]
  cases hA : passes_stages cfg now hv d c <;>
    cases hB : (stage_list cfg now hv d).all (fun f => f c) <;> simp_all

theorem all_of_perm {α : Type} {l₁ l₂ : List α} (h : List.Perm l₁ l₂) (g : α → Bool) :
    l₁.all g = l₂.all g := by
  induction h with
  | nil => rfl
  | cons x _ ih => simp [List.all_cons, ih]
  | swap x y l => cases hx : g x <;> cases hy : g y <;> simp [List.all_cons, hx, hy]
  | trans _ _ ih1 ih2 => rw [ih1, ih2]

/-- C1: a contract enters the eligible set built by `define_orders` iff it
satisfies the conjunction of the six stage predicates (type equals target
direction; floored DTE within `[target_dte_min, target_dte_max]`; coerced
absolute delta within `[target_delta_min, target_delta_max]`; the configured
IV filter; open interest and volume at their minimums; strictly positive bid
and ask with relative spread at most `max_bid_ask_spread_pct`), and the
surviving set is unchanged under any permutation of the six stages. -/
theorem c1_filter_pipeline (cfg : Config) (now : ℚ) (hv : Option ℚ)
    (desired : String) (chain : List Contract) (c : Contract) :
    (c ∈ eligible_contracts cfg now hv desired chain ↔
      c ∈ chain ∧
        c.type = desired ∧
        (cfg.target_dte_min ≤ calculate_dte c.expiration_date now ∧
         calculate_dte c.expiration_date now ≤ cfg.target_dte_max) ∧
        (∃ dv : ℚ, delta_float c.delta = Option.some dv ∧
          cfg.target_delta_min ≤ |dv| ∧ |dv| ≤ cfg.target_delta_max) ∧
        passes_iv_filter cfg c hv = true ∧
        (cfg.min_open_interest ≤ c.open_interest.getD 0 ∧
         cfg.min_volume ≤ c.volume.getD 0) ∧
        (0 < c.bid.getD 0 ∧ 0 < c.ask.getD 0 ∧
         (c.ask.getD 0 - c.bid.getD 0) / c.ask.getD 0 ≤ cfg.max_bid_ask_spread_pct)) ∧
    (∀ l : List (Contract → Bool), List.Perm l (stage_list cfg now hv desired) →
      chain.filter (fun x => l.all (fun f => f x)) =
        eligible_contracts cfg now hv desired chain) := by
  constructor
  · rw [eligible_contracts, List.mem_filter, passes_stages_iff, stage_delta_iff]
    simp only [stage_type, stage_dte, stage_iv, stage_liquidity, stage_spread,
      decide_eq_true_eq]
  · intro l hperm
    rw [eligible_contracts]
    apply List.filter_congr
    intro x _
    rw [all_of_perm hperm, ← passes_stages_eq_all]

/-- C1 witness: swapping the type stage and the DTE stage leaves the
surviving set over the one-contract chain `[sample_call]` unchanged, and the
membership characterization holds there. -/
theorem c1_filter_pipeline_witness :
    [sample_call].filter (fun x =>
      ([stage_dte default_config 0, stage_type "call", stage_delta default_config,
        stage_iv default_config Option.none, stage_liquidity default_config,
        stage_spread default_config]).all (fun f => f x)) =
      eligible_contracts default_config 0 Option.none "call" [sample_call] :=
  (c1_filter_pipeline default_config 0 Option.none "call" [sample_call] sample_call).2
    _ (List.Perm.swap _ _ _)

/-- Non-strict lexicographic order on sort keys. -/
def key_le (a b : ℚ × ℤ) : Prop :=
  a.1 < b.1 ∨ (a.1 = b.1 ∧ a.2 ≤ b.2)

theorem key_le_refl (a : ℚ × ℤ) : key_le a a := Or.inr ⟨rfl, le_refl _⟩

theorem key_le_trans {a b c : ℚ × ℤ} (h1 : key_le a b) (h2 : key_le b c) :
    key_le a c := by
  rcases h1 with h1 | ⟨h1, h1'⟩ <;> rcases h2 with h2 | ⟨h2, h2'⟩
  · exact Or.inl (lt_trans h1 h2)
  · exact Or.inl (h2 ▸ h1)
  · exact Or.inl (h1 ▸ h2)
  · exact Or.inr ⟨h1.trans h2, h1'.trans h2'⟩

theorem key_lt_eq_false_iff (a b : ℚ × ℤ) : key_lt a b = false ↔ key_le b a := by
  unfold key_lt key_le
  simp only [decide_eq_false_iff_not, not_or, not_lt, not_and]
  constructor
  · rintro ⟨h1, h2⟩
    rcases lt_or_eq_of_le h1 with h | h
    · exact Or.inl h
    · exact Or.inr ⟨h, h2 h.symm⟩
  · rintro (h | ⟨h, h'⟩)
    · exact ⟨le_of_lt h, fun he => absurd (he ▸ h) (lt_irrefl _)⟩
    · exact ⟨le_of_eq h, fun _ => h'⟩

theorem key_lt_eq_true_imp {a b : ℚ × ℤ} (h : key_lt a b = true) : key_le a b := by
  unfold key_lt at h
  simp only [decide_eq_true_eq] at h
  rcases h with h | ⟨h, h'⟩
  · exact Or.inl h
  · exact Or.inr ⟨h, le_of_lt h'⟩

theorem select_fold_spec (cfg : Config) (l : List Contract) (a : Contract) :
    (l.foldl (fun best x => if key_lt (sort_key cfg x) (sort_key cfg best) then x else best) a = a ∨
     l.foldl (fun best x => if key_lt (sort_key cfg x) (sort_key cfg best) then x else best) a ∈ l) ∧
    key_le (sort_key cfg (l.foldl
      (fun best x => if key_lt (sort_key cfg x) (sort_key cfg best) then x else best) a))
      (sort_key cfg a) ∧
    ∀ c ∈ l, key_le (sort_key cfg (l.foldl
      (fun best x => if key_lt (sort_key cfg x) (sort_key cfg best) then x else best) a))
      (sort_key cfg c) := by
  induction l generalizing a with
  | nil => exact ⟨Or.inl rfl, key_le_refl _, by simp⟩
  | cons x xs ih =>
    simp only [List.foldl_cons]
    obtain ⟨hmem, hle, hall⟩ :=
      ih (if key_lt (sort_key cfg x) (sort_key cfg a) then x else a)
    have hstep : key_le
        (sort_key cfg (if key_lt (sort_key cfg x) (sort_key cfg a) then x else a))
        (sort_key cfg a) ∧
        key_le (sort_key cfg (if key_lt (sort_key cfg x) (sort_key cfg a) then x else a))
        (sort_key cfg x) := by
      by_cases hk : key_lt (sort_key cfg x) (sort_key cfg a) = true
      · simp only [if_pos hk]
        exact ⟨key_lt_eq_true_imp hk, key_le_refl _⟩
      · simp only [if_neg hk]
        exact ⟨key_le_refl _, (key_lt_eq_false_iff _ _).mp (Bool.eq_false_iff.mpr hk)⟩
    refine ⟨?_, key_le_trans hle hstep.1, ?_⟩
    · rcases hmem with h | h
      · rw [h]
        by_cases hk : key_lt (sort_key cfg x) (sort_key cfg a) = true
        · simp only [if_pos hk]
          exact Or.inr (List.mem_cons_self _ _)
        · simp only [if_neg hk]
          exact Or.inl trivial
      · exact Or.inr (List.mem_cons_of_mem _ h)
    · intro c hc
      rcases List.mem_cons.mp hc with h | h
      · subst h
        exact key_le_trans hle hstep.2
      · exact hall c h

/-- C2: when `define_orders` has a non-empty survivor set, the selected
contract is a survivor whose sort key is lexicographically minimal: its
`| |delta| − midpoint |` distance is at most that of every survivor, and
among equidistant survivors its open interest is maximal; an empty survivor
set makes `define_orders` return the empty order list (no order, and the
function is total so no exception). -/
theorem c2_selection (cfg : Config) (now : ℚ) (hv : Option ℚ) (sig : ℚ)
    (bal : ℚ) (chain : List Contract) (u : ℚ) :
    (eligible_contracts cfg now hv (if 0 < sig then "call" else "put") chain = [] →
      define_orders cfg now sig bal (Option.some chain) (Option.some u) hv = []) ∧
    (eligible_contracts cfg now hv (if 0 < sig then "call" else "put") chain ≠ [] →
      ∃ sel : Contract,
        select_best cfg (eligible_contracts cfg now hv (if 0 < sig then "call" else "put") chain) =
          Option.some sel) ∧
    (∀ sel : Contract,
      select_best cfg (eligible_contracts cfg now hv (if 0 < sig then "call" else "put") chain) =
        Option.some sel →
      sel ∈ eligible_contracts cfg now hv (if 0 < sig then "call" else "put") chain ∧
      ∀ c ∈ eligible_contracts cfg now hv (if 0 < sig then "call" else "put") chain,
        |(|(delta_float sel.delta).getD 0|) - (cfg.target_delta_min + cfg.target_delta_max) / 2| <
          |(|(delta_float c.delta).getD 0|) - (cfg.target_delta_min + cfg.target_delta_max) / 2| ∨
        (|(|(delta_float sel.delta).getD 0|) - (cfg.target_delta_min + cfg.target_delta_max) / 2| =
          |(|(delta_float c.delta).getD 0|) - (cfg.target_delta_min + cfg.target_delta_max) / 2| ∧
         c.open_interest.getD 0 ≤ sel.open_interest.getD 0)) := by
  refine ⟨?_, ?_, ?_⟩
  · intro he
    unfold define_orders
    cases chain with
    | nil => rfl
    | cons c0 rest =>
      by_cases hz : sig = 0
      · simp [hz]
      · simp only [if_neg hz, he, select_best]
  · intro hne
    cases he : eligible_contracts cfg now hv (if 0 < sig then "call" else "put") chain with
    | nil => exact absurd he hne
    | cons c0 rest => exact ⟨_, rfl⟩
  · intro sel hsel
    cases he : eligible_contracts cfg now hv (if 0 < sig then "call" else "put") chain with
    | nil => rw [he] at hsel; exact absurd hsel (by simp [select_best])
    | cons c0 rest =>
      rw [he] at hsel
      unfold select_best at hsel
      obtain ⟨hmem, hle0, hall⟩ := select_fold_spec cfg rest c0
      have hsel' : sel = rest.foldl
          (fun best x => if key_lt (sort_key cfg x) (sort_key cfg best) then x else best) c0 := by
        injection hsel with h; exact h.symm
      constructor
      · rcases hmem with h | h
        · rw [hsel', h]; exact List.mem_cons_self _ _
        · rw [hsel']; exact List.mem_cons_of_mem _ h
      · intro c hc
        have hkey : key_le (sort_key cfg sel) (sort_key cfg c) := by
          rcases List.mem_cons.mp hc with h | h
          · rw [hsel', h]; exact hle0
          · rw [hsel']; exact hall c h
        rcases hkey with h | ⟨h, h'⟩
        · exact Or.inl h
        · refine Or.inr ⟨h, ?_⟩
          have := neg_le_neg_iff.mp h'
          simpa [sort_key] using this

/-- A second eligible call, equidistant from the delta midpoint `2/5` with
`call_hi` (distances `1/20` each) but with lower open interest. -/
def call_lo : Contract :=
  { symbol := "SPY_C_LO", type := "call", expiration_date := 40
    delta := NumField.val (7/20)
    implied_volatility := NumField.val (1/4), iv_percentile := NumField.val 50
    open_interest := some 150, volume := some 100
    bid := some (3/2), ask := some (8/5) }

/-- The higher-open-interest member of the equidistant pair. -/
def call_hi : Contract :=
  { symbol := "SPY_C_HI", type := "call", expiration_date := 40
    delta := NumField.val (9/20)
    implied_volatility := NumField.val (1/4), iv_percentile := NumField.val 50
    open_interest := some 300, volume := some 100
    bid := some (3/2), ask := some (8/5) }

/-- C2 witness: on the two-survivor chain `[call_lo, call_hi]` with equal
delta-midpoint distance, the selected contract `call_hi` (the higher open
interest) is a survivor and is key-minimal among the survivors. -/
theorem c2_selection_witness :
    call_hi ∈ eligible_contracts default_config 0 Option.none
        (if (0:ℚ) < 1 then "call" else "put") [call_lo, call_hi] ∧
    ∀ c ∈ eligible_contracts default_config 0 Option.none
        (if (0:ℚ) < 1 then "call" else "put") [call_lo, call_hi],
      |(|(delta_float call_hi.delta).getD 0|) -
          (default_config.target_delta_min + default_config.target_delta_max) / 2| <
        |(|(delta_float c.delta).getD 0|) -
          (default_config.target_delta_min + default_config.target_delta_max) / 2| ∨
      (|(|(delta_float call_hi.delta).getD 0|) -
          (default_config.target_delta_min + default_config.target_delta_max) / 2| =
        |(|(delta_float c.delta).getD 0|) -
          (default_config.target_delta_min + default_config.target_delta_max) / 2| ∧
       c.open_interest.getD 0 ≤ call_hi.open_interest.getD 0) :=
  (c2_selection default_config 0 Option.none 1 10000 [call_lo, call_hi] 100).2.2 call_hi
    (by
      have hd : (if (0:ℚ) < 1 then "call" else "put") = "call" := by norm_num
      rw [hd]
      have he : eligible_contracts default_config 0 Option.none "call" [call_lo, call_hi] =
          [call_lo, call_hi] := by
        norm_num [eligible_contracts, List.filter, passes_stages, default_config,
          call_lo, call_hi, calculate_dte, delta_float, passes_iv_filter, abs_of_nonneg]
      rw [he]
      norm_num [select_best, key_lt, sort_key, delta_float, call_lo, call_hi,
        default_config, abs_of_nonneg, abs_of_nonpos])

/-- C3: for a selected contract with ask `a > 0` the quantity is
`⌊(balance × risk_per_trade_pct) / (a × 100)⌋`; quantity `0` yields the
empty order list, a positive quantity yields exactly one `buy_to_open`
market order with that quantity and estimated cost `a × quantity × 100`;
in particular balance `10000` at risk fraction `1/100` gives quantity `2`
at ask `1/2` and quantity `0` (no order) at ask `2`. -/
theorem c3_sizing (sel : Contract) (b a : ℚ) (cfg : Config) (d : String)
    (hask : sel.ask = Option.some a) (ha : 0 < a) :
    (Int.floor ((b * cfg.risk_per_trade_pct) / (a * 100)) = 0 →
      size_orders sel b cfg d = []) ∧
    (0 < Int.floor ((b * cfg.risk_per_trade_pct) / (a * 100)) →
      size_orders sel b cfg d =
        [{ symbol := sel.symbol, type := "market", side := "buy_to_open",
           quantity := Int.floor ((b * cfg.risk_per_trade_pct) / (a * 100)),
           price_at_decision := a,
           estimated_cost := a * ((Int.floor ((b * cfg.risk_per_trade_pct) / (a * 100)) : ℤ) : ℚ) * 100,
           tag := "AdvancedOptionsStrategy_" ++ d }]) ∧
    (b = 10000 → cfg.risk_per_trade_pct = 1/100 →
      ((a = 1/2 → Int.floor ((b * cfg.risk_per_trade_pct) / (a * 100)) = 2) ∧
       (a = 2 → Int.floor ((b * cfg.risk_per_trade_pct) / (a * 100)) = 0 ∧
         size_orders sel b cfg d = []))) := by
  have hp : sel.ask.getD 0 = a := by rw [hask]; rfl
  refine ⟨?_, ?_, ?_⟩
  · intro h
    simp only [size_orders, hp, if_neg (not_le.mpr ha), h, if_pos]
  · intro h
    simp only [size_orders, hp, if_neg (not_le.mpr ha)]
    rw [if_neg (by omega)]
  · intro hb hr
    subst hb
    rw [hr]
    constructor
    · intro ha2; subst ha2; norm_num
    · intro ha2; subst ha2
      refine ⟨by norm_num, ?_⟩
      simp only [size_orders, hp, hr, if_neg (not_le.mpr ha)]
      rw [if_pos (by norm_num)]

/-- A selected contract whose ask is `1/2`, for the sizing-success case. -/
def cheap_call : Contract :=
  { symbol := "SPY_C_CHEAP", type := "call", expiration_date := 40
    delta := NumField.val (2/5)
    implied_volatility := NumField.val (1/4), iv_percentile := NumField.val 50
    open_interest := some 200, volume := some 100
    bid := some (9/20), ask := some (1/2) }

/-- C3 witness: the sizing clauses evaluated at balance `10000`, risk
fraction `1/100`, ask `1/2` (the spec's concrete example). -/
theorem c3_sizing_witness :
    0 < Int.floor (((10000:ℚ) * default_config.risk_per_trade_pct) / ((1/2) * 100)) ∧
    size_orders cheap_call 10000 default_config "call" =
      [{ symbol := cheap_call.symbol, type := "market", side := "buy_to_open",
         quantity := Int.floor (((10000:ℚ) * default_config.risk_per_trade_pct) / ((1/2) * 100)),
         price_at_decision := (1/2 : ℚ),
         estimated_cost := (1/2 : ℚ) *
           ((Int.floor (((10000:ℚ) * default_config.risk_per_trade_pct) / ((1/2) * 100)) : ℤ) : ℚ) * 100,
         tag := "AdvancedOptionsStrategy_" ++ "call" }] := by
  have h : 0 < Int.floor (((10000:ℚ) * default_config.risk_per_trade_pct) / ((1/2) * 100)) := by
    norm_num [default_config]
  exact ⟨h, (c3_sizing cheap_call 10000 (1/2) default_config "call" rfl (by norm_num)).2.1 h⟩

/-- A configuration whose delta band `[0, 1/2]` contains `0`. -/
def cfg_zero : Config :=
  { default_config with target_delta_min := 0, target_delta_max := 1/2 }

/-- A contract identical to `sample_call` except that its delta field holds
a non-numeric string. -/
def bad_delta_call : Contract :=
  { symbol := "SPY_C_BAD", type := "call", expiration_date := 40
    delta := NumField.invalid
    implied_volatility := NumField.val (1/4), iv_percentile := NumField.val 50
    open_interest := some 200, volume := some 100
    bid := some (3/2), ask := some (8/5) }

/-- C5 counterexample: with delta band `[0, 1/2]` (so `0.0` lies inside the
band) a contract with a non-numeric delta still fails the delta stage and is
excluded from the survivor set — the `except: continue` of lines 195–198 is
a dedicated reject path, so "passes iff `0.0` is within the band" is false
for non-numeric deltas. -/
theorem c5_counterexample :
    stage_delta cfg_zero bad_delta_call = false ∧
    cfg_zero.target_delta_min ≤ 0 ∧ (0:ℚ) ≤ cfg_zero.target_delta_max ∧
    eligible_contracts cfg_zero 0 Option.none "call" [bad_delta_call] = [] := by
  refine ⟨rfl, by norm_num [cfg_zero, default_config], by norm_num [cfg_zero, default_config], ?_⟩
  norm_num [eligible_contracts, List.filter, passes_stages, cfg_zero, default_config,
    bad_delta_call, calculate_dte, delta_float]

/-- C5 amended: only a missing delta is read as `0.0` (passing the delta
stage iff `0.0` lies within `[target_delta_min, target_delta_max]`); a
present but non-numeric delta is rejected by the `except: continue` path
regardless of the band; in particular with band `[3/10, 1/2]` both are
excluded. -/
theorem c5_amended (cfg : Config) (c : Contract) :
    (c.delta = NumField.missing →
      (stage_delta cfg c = true ↔ cfg.target_delta_min ≤ 0 ∧ (0:ℚ) ≤ cfg.target_delta_max)) ∧
    (c.delta = NumField.invalid → stage_delta cfg c = false) ∧
    ((c.delta = NumField.missing ∨ c.delta = NumField.invalid) →
      cfg.target_delta_min = 3/10 → cfg.target_delta_max = 1/2 →
      stage_delta cfg c = false) := by
  refine ⟨?_, ?_, ?_⟩
  · intro h
    simp [stage_delta, h, delta_float]
  · intro h
    simp [stage_delta, h, delta_float]
  · rintro (h | h) hmin hmax <;> simp [stage_delta, h, delta_float, hmin]

/-- C5 amended witness: the non-numeric-delta contract fails the delta stage
under the default `[3/10, 1/2]` band. -/
theorem c5_amended_witness : stage_delta default_config bad_delta_call = false :=
  (c5_amended default_config bad_delta_call).2.1 rfl

theorem passes_stages_false_of_invalid (cfg : Config) (now : ℚ) (hv : Option ℚ)
    (d : String) (c : Contract)
    (h : c.delta = NumField.invalid ∨ c.implied_volatility = NumField.invalid) :
    passes_stages cfg now hv d c = false := by
  rcases h with h | h
  · unfold passes_stages
    split_ifs <;> simp [h, delta_float]
  · unfold passes_stages
    cases hd : delta_float c.delta <;>
      split_ifs <;> simp_all [passes_iv_filter, h]

/-- C6: `define_orders` returns the empty order list (and, being total,
raises nothing) when the options chain is `None` or empty, when the
underlying price is absent, and when the latest signal's positions value is
zero; and a single contract whose delta or IV fails numeric coercion is
dropped from the survivor set without affecting any other contract. -/
theorem c6_failure_semantics (cfg : Config) (now sig bal : ℚ) (hv : Option ℚ) :
    (∀ up : Option ℚ, define_orders cfg now sig bal Option.none up hv = []) ∧
    (∀ up : Option ℚ, define_orders cfg now sig bal (Option.some []) up hv = []) ∧
    (∀ ch : List Contract, define_orders cfg now sig bal (Option.some ch) Option.none hv = []) ∧
    (sig = 0 → ∀ (ch : List Contract) (u : ℚ),
      define_orders cfg now sig bal (Option.some ch) (Option.some u) hv = []) ∧
    (∀ (d : String) (l1 l2 : List Contract) (bad : Contract),
      bad.delta = NumField.invalid ∨ bad.implied_volatility = NumField.invalid →
      eligible_contracts cfg now hv d (l1 ++ bad :: l2) =
        eligible_contracts cfg now hv d (l1 ++ l2)) := by
  refine ⟨fun up => rfl, fun up => by cases up <;> rfl, ?_, ?_, ?_⟩
  · intro ch
    cases ch <;> rfl
  · intro h ch u
    cases ch with
    | nil => rfl
    | cons c0 rest => simp [define_orders, h]
  · intro d l1 l2 bad hbad
    simp [eligible_contracts, List.filter_append, List.filter_cons,
      passes_stages_false_of_invalid cfg now hv d bad hbad]

/-- C6 witness: a zero signal on a non-empty chain yields no orders, and
dropping the non-numeric-delta contract from a chain leaves the other
contracts' survivor set unchanged. -/
theorem c6_failure_semantics_witness :
    define_orders default_config 0 0 10000 (Option.some [sample_call])
      (Option.some 100) Option.none = [] ∧
    eligible_contracts default_config 0 Option.none "call"
        ([sample_call] ++ bad_delta_call :: [call_hi]) =
      eligible_contracts default_config 0 Option.none "call" ([sample_call] ++ [call_hi]) :=
  ⟨(c6_failure_semantics default_config 0 0 10000 Option.none).2.2.2.1 rfl [sample_call] 100,
   (c6_failure_semantics default_config 0 0 10000 Option.none).2.2.2.2 "call" [sample_call]
     [call_hi] bad_delta_call (Or.inl rfl)⟩

/-- C7: on a tick processed by an initialized strategy with stored previous
means and full windows, an upward cross (prev short ≤ prev long and new
short > new long) emits BUY and sets position to 1 exactly when the current
position is ≤ 0 and otherwise holds with the position unchanged; a downward
cross emits SELL and sets position to −1 exactly when the position is ≥ 0
and otherwise holds; no cross holds with the position unchanged. -/
theorem c7_crossover (s : MovingAverageCrossoverStrategy) (p ps pl : ℚ)
    (hinit : s.data_initialized = true) (hp : 0 < p)
    (hs : s.short_ma = Option.some ps) (hl : s.long_ma = Option.some pl)
    (hlen1 : s.short_window ≤ (deque_append (s.long_window + 5) s.prices p).length)
    (hlen2 : s.long_window ≤ (deque_append (s.long_window + 5) s.prices p).length) :
    ((ps ≤ pl ∧ window_mean s.long_window (deque_append (s.long_window + 5) s.prices p) <
        window_mean s.short_window (deque_append (s.long_window + 5) s.prices p)) →
      ((s.position ≤ 0 →
          (on_new_tick s p).1 = "BUY" ∧ (on_new_tick s p).2.position = 1) ∧
       (0 < s.position →
          (on_new_tick s p).1 = "HOLD" ∧ (on_new_tick s p).2.position = s.position))) ∧
    ((pl ≤ ps ∧ window_mean s.short_window (deque_append (s.long_window + 5) s.prices p) <
        window_mean s.long_window (deque_append (s.long_window + 5) s.prices p)) →
      ((0 ≤ s.position →
          (on_new_tick s p).1 = "SELL" ∧ (on_new_tick s p).2.position = -1) ∧
       (s.position < 0 →
          (on_new_tick s p).1 = "HOLD" ∧ (on_new_tick s p).2.position = s.position))) ∧
    ((¬(ps ≤ pl ∧ window_mean s.long_window (deque_append (s.long_window + 5) s.prices p) <
          window_mean s.short_window (deque_append (s.long_window + 5) s.prices p)) ∧
      ¬(pl ≤ ps ∧ window_mean s.short_window (deque_append (s.long_window + 5) s.prices p) <
          window_mean s.long_window (deque_append (s.long_window + 5) s.prices p))) →
      (on_new_tick s p).1 = "HOLD" ∧ (on_new_tick s p).2.position = s.position) := by
  have h1 : ¬ s.data_initialized = false := by rw [hinit]; simp
  simp only [on_new_tick, hs, hl, if_neg h1, if_neg (not_le.mpr hp),
    if_neg (not_lt.mpr hlen1), if_neg (not_lt.mpr hlen2)]
  refine ⟨?_, ?_, ?_⟩
  · intro hc
    rw [if_pos hc]
    constructor
    · intro hpos
      rw [if_pos hpos]
      exact ⟨rfl, rfl⟩
    · intro hpos
      rw [if_neg (not_le.mpr hpos)]
      exact ⟨rfl, rfl⟩
  · intro hc
    have hn1 : ¬(ps ≤ pl ∧ window_mean s.long_window (deque_append (s.long_window + 5) s.prices p) <
        window_mean s.short_window (deque_append (s.long_window + 5) s.prices p)) := by
      rintro ⟨-, h⟩
      exact absurd hc.2 (by linarith)
    rw [if_neg hn1, if_pos hc]
    constructor
    · intro hpos
      rw [if_pos hpos]
      exact ⟨rfl, rfl⟩
    · intro hpos
      rw [if_neg (not_le.mpr hpos)]
      exact ⟨rfl, rfl⟩
  · rintro ⟨h2, h3⟩
    rw [if_neg h2, if_neg h3]
    exact ⟨rfl, rfl⟩

/-- The state after successfully initializing a `2/3`-window strategy on the
bars `[1, 1, 1]`: both means are `1`, the deque holds the three closes. -/
def demo_strategy : MovingAverageCrossoverStrategy :=
  { short_window := 2, long_window := 3, forex_pair := "EUR.USD", prices := [1, 1, 1],
    short_ma := some 1, long_ma := some 1, data_initialized := true, position := 0 }

/-- C7 witness: the flat `demo_strategy` on tick `10` sees an upward cross
(`1 ≤ 1`, new short `11/2 > 4` new long) and emits BUY with position `1`. -/
theorem c7_crossover_witness :
    (on_new_tick demo_strategy 10).1 = "BUY" ∧ (on_new_tick demo_strategy 10).2.position = 1 :=
  ((c7_crossover demo_strategy 10 1 1 rfl (by norm_num) rfl rfl
      (by norm_num [deque_append, demo_strategy])
      (by norm_num [deque_append, demo_strategy])).1
    ⟨le_refl 1, by norm_num [window_mean, last_n, deque_append, demo_strategy]⟩).1
    (by norm_num [demo_strategy])

theorem demo_init_eq :
    init_with_historical_data (mk_strategy 2 3 "EUR.USD") [1, 1, 1] = (true, demo_strategy) := by
  simp [init_with_historical_data, mk_strategy, demo_strategy, window_mean, last_n,
    deque_append, List.foldl]
  norm_num

/-- C8 counterexample: initialization on `[1, 1, 1]` succeeds (storing both
means), and the very first `on_new_tick` afterwards, at the positive price
`10`, returns BUY — not HOLD. Successful initialization always sets
`short_ma`/`long_ma`, so the previous-means-`None` HOLD branch cannot fire
on the first post-initialization tick. -/
theorem c8_counterexample :
    (init_with_historical_data (mk_strategy 2 3 "EUR.USD") [1, 1, 1]).1 = true ∧
    0 < (10:ℚ) ∧
    (on_new_tick (init_with_historical_data (mk_strategy 2 3 "EUR.USD") [1, 1, 1]).2 10).1 = "BUY" := by
  rw [demo_init_eq]
  refine ⟨rfl, by norm_num, ?_⟩
  simp [on_new_tick, demo_strategy, window_mean, last_n, deque_append]
  norm_num

/-- C8 amended: the first-tick HOLD branch fires only when a previous mean
is absent (`short_ma` or `long_ma` is `None`), in which case the tick holds
and leaves the position unchanged; successful initialization always stores
both means (and sets the initialized flag), so the first tick after a
successful initialization is treated like any other tick and may emit a
crossover signal. -/
theorem c8_amended (s t : MovingAverageCrossoverStrategy) (p : ℚ) (bars : List ℚ) :
    (s.data_initialized = true → (s.short_ma = Option.none ∨ s.long_ma = Option.none) →
      (on_new_tick s p).1 = "HOLD" ∧ (on_new_tick s p).2.position = s.position) ∧
    ((init_with_historical_data t bars).1 = true →
      (init_with_historical_data t bars).2.short_ma ≠ Option.none ∧
      (init_with_historical_data t bars).2.long_ma ≠ Option.none ∧
      (init_with_historical_data t bars).2.data_initialized = true) := by
  constructor
  · intro hinit hnone
    have h1 : ¬ s.data_initialized = false := by rw [hinit]; simp
    unfold on_new_tick
    rw [if_neg h1]
    by_cases hp : p ≤ 0
    · rw [if_pos hp]; exact ⟨rfl, rfl⟩
    · rw [if_neg hp]
      by_cases hl1 : (deque_append (s.long_window + 5) s.prices p).length < s.short_window
      · rw [if_pos hl1]; exact ⟨rfl, rfl⟩
      · rw [if_neg hl1]
        by_cases hl2 : (deque_append (s.long_window + 5) s.prices p).length < s.long_window
        · rw [if_pos hl2]; exact ⟨rfl, rfl⟩
        · rw [if_neg hl2]
          rcases hs : s.short_ma with _ | ps <;> rcases hl : s.long_ma with _ | pl <;>
            simp_all
  · intro hsucc
    simp only [init_with_historical_data] at hsucc ⊢
    by_cases h1 : bars.isEmpty = true ∨ bars.length < t.long_window
    · rw [if_pos h1] at hsucc ⊢
      exact absurd hsucc (by simp)
    · rw [if_neg h1] at hsucc ⊢
      by_cases h2 :
          (if t.short_window ≤ bars.length
            then Option.some (window_mean t.short_window bars) else Option.none) = Option.none ∨
          (if t.long_window ≤ bars.length
            then Option.some (window_mean t.long_window bars) else Option.none) = Option.none
      · rw [if_pos h2] at hsucc ⊢
        exact absurd hsucc (by simp)
      · rw [if_neg h2] at hsucc ⊢
        push_neg at h2
        exact ⟨h2.1, h2.2, rfl⟩

/-- C8 amended witness: a state with its short mean absent holds on a tick,
and the successful `[1, 1, 1]` initialization leaves both means present. -/
theorem c8_amended_witness :
    (on_new_tick { demo_strategy with short_ma := Option.none } 10).1 = "HOLD" ∧
    (init_with_historical_data (mk_strategy 2 3 "EUR.USD") [1, 1, 1]).2.short_ma ≠ Option.none :=
  ⟨((c8_amended { demo_strategy with short_ma := Option.none }
      (mk_strategy 2 3 "EUR.USD") 10 [1, 1, 1]).1 rfl (Or.inl rfl)).1,
   ((c8_amended { demo_strategy with short_ma := Option.none }
      (mk_strategy 2 3 "EUR.USD") 10 [1, 1, 1]).2 (by rw [demo_init_eq])).1⟩

/-- C9: initializing a fresh strategy with fewer than `long_window` bars
reports failure and leaves the state exactly as constructed (uninitialized),
and every subsequent tick sequence returns only HOLD while leaving the
state — price buffer, means, position — untouched. -/
theorem c9_init_failure (sw lw : ℕ) (fp : String) (bars ticks : List ℚ)
    (h : bars.length < lw) :
    init_with_historical_data (mk_strategy sw lw fp) bars = (false, mk_strategy sw lw fp) ∧
    run_ticks (mk_strategy sw lw fp) ticks = (ticks.map (fun _ => "HOLD"), mk_strategy sw lw fp) := by
  have huninit : ∀ q : ℚ, on_new_tick (mk_strategy sw lw fp) q = ("HOLD", mk_strategy sw lw fp) := by
    intro q
    simp [on_new_tick, mk_strategy]
  constructor
  · have h' : bars.length < (mk_strategy sw lw fp).long_window := h
    unfold init_with_historical_data
    rw [if_pos (Or.inr h')]
  · induction ticks with
    | nil => rfl
    | cons q qs ih => simp [run_ticks, huninit q, ih]

/-- C9 witness: five bars against `long_window = 10` (the spec's concrete
case) fail initialization, and two subsequent ticks both hold. -/
theorem c9_init_failure_witness :
    init_with_historical_data (mk_strategy 5 10 "EUR.USD") [1, 1, 1, 1, 1] =
      (false, mk_strategy 5 10 "EUR.USD") ∧
    run_ticks (mk_strategy 5 10 "EUR.USD") [2, 3] =
      (["HOLD", "HOLD"], mk_strategy 5 10 "EUR.USD") :=
  c9_init_failure 5 10 "EUR.USD" [1, 1, 1, 1, 1] [2, 3] (by norm_num)

theorem init_preserves_position (s : MovingAverageCrossoverStrategy) (bars : List ℚ) :
    (init_with_historical_data s bars).2.position = s.position := by
  unfold init_with_historical_data
  split_ifs <;> rfl

theorem tick_position_cases (s : MovingAverageCrossoverStrategy) (p : ℚ) :
    (on_new_tick s p).2.position = s.position ∨ (on_new_tick s p).2.position = 1 ∨
      (on_new_tick s p).2.position = -1 := by
  unfold on_new_tick
  rcases hs : s.short_ma with _ | ps <;> rcases hl : s.long_ma with _ | pl <;>
    simp only [hs, hl] <;> split_ifs <;> simp

/-- C10 counterexample: `update_position` validates nothing, so the state
reached from a fresh strategy by the single setter call
`update_position(5)` is reachable yet has position `5 ∉ {−1, 0, 1}`. -/
theorem c10_counterexample :
    Reachable (update_position (mk_strategy 2 3 "EUR.USD") 5) ∧
    (update_position (mk_strategy 2 3 "EUR.USD") 5).position = 5 ∧
    ¬((update_position (mk_strategy 2 3 "EUR.USD") 5).position = -1 ∨
      (update_position (mk_strategy 2 3 "EUR.USD") 5).position = 0 ∨
      (update_position (mk_strategy 2 3 "EUR.USD") 5).position = 1) :=
  ⟨Reachable.set_pos _ 5 (Reachable.construct 2 3 "EUR.USD"), rfl, by decide⟩

/-- C10 amended: in every state reachable via construction, initialization,
ticks, and setter calls whose argument is restricted to `{−1, 0, 1}`, the
position lies in `{−1, 0, 1}`. The setter itself performs no validation, so
the unrestricted invariant fails (see the counterexample). -/
theorem c10_amended (s : MovingAverageCrossoverStrategy) (h : ReachableValid s) :
    s.position = -1 ∨ s.position = 0 ∨ s.position = 1 := by
  induction h with
  | construct sw lw fp => right; left; rfl
  | init t bars _ ih => rw [init_preserves_position]; exact ih
  | tick t q _ ih =>
    rcases tick_position_cases t q with hc | hc | hc
    · rw [hc]; exact ih
    · rw [hc]; right; right; rfl
    · rw [hc]; left; rfl
  | set_pos t n hn _ _ => simpa [update_position] using hn

/-- C10 amended witness: the state reached by a valid setter call
`update_position(1)` on a fresh strategy has position in `{−1, 0, 1}`. -/
theorem c10_amended_witness :
    (update_position (mk_strategy 2 3 "EUR.USD") 1).position = -1 ∨
    (update_position (mk_strategy 2 3 "EUR.USD") 1).position = 0 ∨
    (update_position (mk_strategy 2 3 "EUR.USD") 1).position = 1 :=
  c10_amended _ (ReachableValid.set_pos _ 1 (Or.inr (Or.inr rfl))
    (ReachableValid.construct 2 3 "EUR.USD"))
